import Mathlib

/-!
Verification of the weekly workout-plan lifecycle and scheduling engine of a
fitness-tracking backend.

The embedding models the persistent store (plans, routines, weekly-schedule
entries, completion history, users, goals) as plain lists of records, and the
service functions as pure state transformers:

* `start_workout_session` and `swap_routine_mappings` from
  `src/api/modules/daily_schedule/services.py`;
* `log_workout_completion` from `src/api/modules/workout/services.py`;
* `save_ai_workout_plan` from
  `src/api/modules/ai_backend_integration/services.py`;
* `get_user_stats` from `src/api/modules/user/services.py`;
* `get_user_workout_plan_by_date` together with its generation helper from
  `src/api/modules/daily_schedule/services.py`.

Calendar dates are modelled as natural numbers counting days from a Monday
epoch, so `d % 7` is Python's `date.weekday()` (0 = Monday).  Raised Python
exceptions become explicit error constructors; a function that commits nothing
before raising returns the unchanged store.  Weights are opaque numeric values
(`Option Nat`); the serialized routine blob is an abstract string parsed by an
explicitly supplied parse function, mirroring `json.loads` at the call site.
-/

namespace RFT

/-- Enum `ScheduleStatus` from `models/Enums/enums.py`. -/
inductive ScheduleStatus where
  | pending
  | started
  | completed
  | skipped
  | swapped
  deriving DecidableEq, Repr

/-- Value strings of `ScheduleStatus` (the `.value` of the Python enum). -/
def statusValue : ScheduleStatus → String
  | .pending => "pending"
  | .started => "started"
  | .completed => "completed"
  | .skipped => "skipped"
  | .swapped => "swapped"

/-- Enum `DayOfWeek` from `models/Enums/enums.py`. -/
inductive DayOfWeek where
  | monday
  | tuesday
  | wednesday
  | thursday
  | friday
  | saturday
  | sunday
  deriving DecidableEq, Repr

/-- Value strings of `DayOfWeek` (the `.value` of the Python enum). -/
def dayValue : DayOfWeek → String
  | .monday => "Monday"
  | .tuesday => "Tuesday"
  | .wednesday => "Wednesday"
  | .thursday => "Thursday"
  | .friday => "Friday"
  | .saturday => "Saturday"
  | .sunday => "Sunday"

/-- Name lookup `DayOfWeek[name]` on the Python enum (names are upper case). -/
def dayOfWeekFromName (s : String) : Option DayOfWeek :=
  if s = "MONDAY" then some .monday
  else if s = "TUESDAY" then some .tuesday
  else if s = "WEDNESDAY" then some .wednesday
  else if s = "THURSDAY" then some .thursday
  else if s = "FRIDAY" then some .friday
  else if s = "SATURDAY" then some .saturday
  else if s = "SUNDAY" then some .sunday
  else none

/-- Name lookup `ScheduleStatus[name]` on the Python enum. -/
def scheduleStatusFromName (s : String) : Option ScheduleStatus :=
  if s = "PENDING" then some .pending
  else if s = "STARTED" then some .started
  else if s = "COMPLETED" then some .completed
  else if s = "SKIPPED" then some .skipped
  else if s = "SWAPPED" then some .swapped
  else none

/-- Row of `users`: only the columns the modelled services read or write
(`HeightCm`, `WeightKg`, `CurrentWeight`); the remaining columns feed only the
external generator request. -/
structure UserRec where
  userId : Nat
  heightCm : Option Nat
  weightKg : Option Nat
  currentWeight : Option Nat
  deriving DecidableEq, Repr

/-- Row of `goals`: the columns validated by the plan-generation helper plus
the `Active` flag. -/
structure GoalRec where
  userId : Nat
  active : Bool
  targetWeight : Option Nat
  targetDurationInWeeks : Option Nat
  noOfWorkoutDaysInWeek : Option Nat
  deriving DecidableEq, Repr

/-- Row of `workout_plans` (`models/DbModels/workout_plan.py`).  `createdAt`
is the commit time recorded by the store. -/
structure WorkoutPlan where
  planId : Nat
  userId : Nat
  generatedByAI : Bool
  startDate : Nat
  endDate : Nat
  isActive : Bool
  planVersion : Nat
  overview : String
  createdAt : Nat
  deriving DecidableEq, Repr

/-- Row of `routines` (`models/DbModels/routines.py`). -/
structure Routine where
  routineId : Nat
  planId : Nat
  routineName : Option String
  focus : Option String
  routineJson : Option String
  deriving DecidableEq, Repr

/-- Row of `weekly_schedule` (`models/DbModels/weekly_schedule.py`). -/
structure WeeklySchedule where
  scheduleId : Nat
  planId : Nat
  dayOfWeek : DayOfWeek
  routineId : Option Nat
  status : ScheduleStatus
  completedAt : Option Nat
  userFeedback : Option String
  isRestDay : Bool
  deriving DecidableEq, Repr

/-- Row of `daily_user_workout_routine_history`
(`models/DbModels/daily_user_workout_routine_history.py`). -/
structure CompletionRecord where
  historyId : Nat
  planId : Nat
  routineId : Nat
  scheduleId : Nat
  userId : Nat
  date : Nat
  isCompleted : Bool
  todayWeight : Option Nat
  workoutNotes : Option String
  deriving DecidableEq, Repr

/-- The transactional store: one list per table, plus autoincrement
counters for the primary keys the services create. -/
structure Store where
  users : List UserRec
  goals : List GoalRec
  plans : List WorkoutPlan
  routines : List Routine
  schedules : List WeeklySchedule
  history : List CompletionRecord
  nextPlanId : Nat
  nextRoutineId : Nat
  nextScheduleId : Nat
  nextHistoryId : Nat
  deriving DecidableEq, Repr

/-- Query `WeeklySchedule` by primary key, `.first()` on the filtered rows. -/
def findSchedule (l : List WeeklySchedule) (sid : Nat) : Option WeeklySchedule :=
  l.find? (fun s => s.scheduleId == sid)

/-- Query `User` by primary key. -/
def findUser (l : List UserRec) (uid : Nat) : Option UserRec :=
  l.find? (fun u => u.userId == uid)

/-- Mutate the row the query returned: apply `f` to the first row whose
`ScheduleId` matches, leaving every other row untouched. -/
def updateScheduleFirst (sid : Nat) (f : WeeklySchedule → WeeklySchedule) :
    List WeeklySchedule → List WeeklySchedule
  | [] => []
  | s :: rest =>
    if s.scheduleId == sid then f s :: rest
    else s :: updateScheduleFirst sid f rest

/-- Mutate the first user row with the given id. -/
def updateUserFirst (uid : Nat) (f : UserRec → UserRec) :
    List UserRec → List UserRec
  | [] => []
  | u :: rest =>
    if u.userId == uid then f u :: rest
    else u :: updateUserFirst uid f rest

/-- Outcome of `start_workout_session`: the source returns `None` when the id
is unknown, raises `ValueError` on the status guard, and otherwise returns the
updated row. -/
inductive StartResult where
  | noneNotFound
  | invalidState (msg : String)
  | ok (entry : WeeklySchedule)
  deriving DecidableEq, Repr

/-- Embedding of `start_workout_session`
(`src/api/modules/daily_schedule/services.py`, lines 346-381): look the entry
up by id; return `None` if absent; raise `ValueError` only when the current
status is `COMPLETED` (the guard the source actually performs); otherwise set
the status to `STARTED`, commit, and return the refreshed row.  The source
message quotes the status names; the quote characters are elided here. -/
def start_workout_session (st : Store) (sid : Nat) : Store × StartResult :=
  match findSchedule st.schedules sid with
  | none => (st, .noneNotFound)
  | some s =>
    if s.status = .completed then
      (st, .invalidState ("Cannot start session. Current status is " ++
        statusValue s.status ++ ", expected pending"))
    else
      let st' := { st with
        schedules := updateScheduleFirst sid
          (fun t => { t with status := .started }) st.schedules }
      (st', .ok { s with status := .started })

/-- Outcome of `swap_routine_mappings`: `LookupError` naming the missing id,
or the two refreshed rows. -/
inductive SwapResult where
  | notFound (msg : String)
  | ok (entry1 entry2 : WeeklySchedule)
  deriving DecidableEq, Repr

/-- Embedding of `swap_routine_mappings`
(`src/api/modules/daily_schedule/services.py`, lines 384-438): fetch both
rows (raising `LookupError` naming whichever id is missing), capture both
`RoutineId` values, then update the same rows in place with the routine ids
exchanged and both statuses set to `SWAPPED`, and return the refreshed rows. -/
def swap_routine_mappings (st : Store) (sid1 sid2 : Nat) : Store × SwapResult :=
  match findSchedule st.schedules sid1 with
  | none => (st, .notFound ("Schedule with ID " ++ toString sid1 ++ " not found"))
  | some s1 =>
    match findSchedule st.schedules sid2 with
    | none => (st, .notFound ("Schedule with ID " ++ toString sid2 ++ " not found"))
    | some s2 =>
      let r1 := s1.routineId
      let r2 := s2.routineId
      let sch1 := updateScheduleFirst sid1
        (fun t => { t with routineId := r2, status := .swapped }) st.schedules
      let sch2 := updateScheduleFirst sid2
        (fun t => { t with routineId := r1, status := .swapped }) sch1
      ({ st with schedules := sch2 },
        .ok ((findSchedule sch2 sid1).getD { s1 with routineId := r2, status := .swapped })
            ((findSchedule sch2 sid2).getD { s2 with routineId := r1, status := .swapped }))

/-- Outcome of `log_workout_completion`: `LookupError` for a missing user or
schedule row, `ValueError` for the status guard, or the created history row. -/
inductive CompletionResult where
  | notFound (msg : String)
  | invalidState (msg : String)
  | ok (record : CompletionRecord)
  deriving DecidableEq, Repr

/-- Embedding of `log_workout_completion`
(`src/api/modules/workout/services.py`, lines 18-107): validate the user and
schedule rows exist, require status `STARTED` (raising `ValueError` naming the
actual and expected status otherwise), insert one history row dated today with
`IsCompleted = True`, update the user's current weight when a (truthy) weight
is supplied, and set the schedule row to `COMPLETED` with `CompletedAt = now`;
everything commits together. -/
def log_workout_completion (st : Store) (sid uid pid rid : Nat)
    (todayWeight : Option Nat) (workoutNotes : Option String)
    (today now : Nat) : Store × CompletionResult :=
  match findUser st.users uid with
  | none => (st, .notFound ("User with ID " ++ toString uid ++ " not found"))
  | some _ =>
    match findSchedule st.schedules sid with
    | none => (st, .notFound ("Schedule with ID " ++ toString sid ++ " not found"))
    | some s =>
      if s.status ≠ .started then
        (st, .invalidState ("Cannot complete workout. Current status is " ++
          statusValue s.status ++ ", expected started"))
      else
        let record : CompletionRecord :=
          { historyId := st.nextHistoryId, planId := pid, routineId := rid,
            scheduleId := sid, userId := uid, date := today, isCompleted := true,
            todayWeight := todayWeight, workoutNotes := workoutNotes }
        let users' :=
          if todayWeight.getD 0 ≠ 0 then
            updateUserFirst uid (fun u => { u with currentWeight := todayWeight }) st.users
          else st.users
        let schedules' := updateScheduleFirst sid
          (fun t => { t with status := .completed, completedAt := some now }) st.schedules
        ({ st with
            users := users',
            schedules := schedules',
            history := st.history ++ [record],
            nextHistoryId := st.nextHistoryId + 1 },
          .ok record)

/-- Whether a completed history row exists for the user on the given date:
the query inside `get_user_stats`. -/
def completedOn (hist : List CompletionRecord) (uid d : Nat) : Bool :=
  hist.any (fun r => r.userId == uid && r.date == d && r.isCompleted)

/-- The backwards walk of `get_user_stats`: count consecutive completed days
ending at the given date.  The walk of the source steps back one calendar day
at a time and stops at the first date with no completed row; day 0 is the
epoch, before which no row exists. -/
def live_streak (hist : List CompletionRecord) (uid : Nat) : Nat → Nat
  | 0 => if completedOn hist uid 0 then 1 else 0
  | d + 1 => if completedOn hist uid (d + 1) then live_streak hist uid d + 1 else 0

/-- Result shape of `get_user_stats`. -/
structure UserStats where
  isGoalSet : Bool
  liveStreak : Nat
  yesterdayMissedWorkout : Bool
  deriving DecidableEq, Repr

/-- Embedding of `get_active_user_goal`
(`src/api/modules/user/services.py`, lines 144-150). -/
def get_active_user_goal (st : Store) (uid : Nat) : Option GoalRec :=
  st.goals.find? (fun g => g.userId == uid && g.active)

/-- Embedding of `get_user_stats` (`src/api/modules/user/services.py`, lines
200-259): goal flag, backwards streak walk from today, and an independent
query for a completed row dated yesterday. -/
def get_user_stats (st : Store) (uid today : Nat) : UserStats :=
  { isGoalSet := (get_active_user_goal st uid).isSome,
    liveStreak := live_streak st.history uid today,
    yesterdayMissedWorkout := !(completedOn st.history uid (today - 1)) }

/-! ### Persisting an AI-generated plan -/

/-- Routine item of the generated content: `name` and `focus` read through
attribute access with `None` defaults, plus the serialized form of the whole
routine object produced by `json.dumps` (abstracted as the string it yields,
since its content is only stored, never inspected, during persistence). -/
structure AIRoutineData where
  name : Option String
  focus : Option String
  serialized : String
  deriving DecidableEq, Repr

/-- Weekly-schedule item of the generated content; `none` models an absent or
`None` attribute (either way the source falls back to the same default). -/
structure AIScheduleData where
  day_of_week : Option String
  routine_name : Option String
  status : Option String
  deriving DecidableEq, Repr

/-- The AI response object consumed by `save_ai_workout_plan`. -/
structure AIResponse where
  user_id : Option Nat
  routines : List AIRoutineData
  weekly_schedule : List AIScheduleData
  overview : String
  deriving DecidableEq, Repr

/-- ASCII uppercase of one character, the behaviour of Python `str.upper`
on the letters the enum names use. -/
def asciiUpperChar (c : Char) : Char :=
  if c.toNat ≥ 97 && c.toNat ≤ 122 then Char.ofNat (c.toNat - 32) else c

/-- Python `str.upper` on ASCII strings. -/
def asciiUpper (s : String) : String := ⟨s.data.map asciiUpperChar⟩

/-- Case-insensitive day resolution of the source: `DayOfWeek[day.upper()]`,
with Monday as fallback on `KeyError` (unknown name) or `AttributeError`
(missing string). -/
def resolveDayOfWeek (o : Option String) : DayOfWeek :=
  match o with
  | none => .monday
  | some s => (dayOfWeekFromName (asciiUpper s)).getD .monday

/-- Case-insensitive status resolution: `ScheduleStatus[status.upper()]`
with `PENDING` as fallback. -/
def resolveStatus (o : Option String) : ScheduleStatus :=
  match o with
  | none => .pending
  | some s => (scheduleStatusFromName (asciiUpper s)).getD .pending

/-- Lookup in the `routine_name -> RoutineId` dict.  The dict is represented
by an association list whose most recent insertion comes first, matching the
overwrite semantics of the Python dict. -/
def alistLookup (m : List (Option String × Nat)) (k : Option String) : Option Nat :=
  match m.find? (fun p => p.1 == k) with
  | some p => some p.2
  | none => none

/-- Insert the routine rows one by one, flushing after each to obtain its
autoincremented id, and accumulate the `routine_name -> RoutineId` map. -/
def buildRoutines (pid : Nat) : Nat → List (Option String × Nat) →
    List AIRoutineData → List Routine × List (Option String × Nat)
  | _, acc, [] => ([], acc)
  | sid, acc, r :: rs =>
    let routine : Routine :=
      { routineId := sid, planId := pid, routineName := r.name,
        focus := r.focus, routineJson := some r.serialized }
    let rest := buildRoutines pid (sid + 1) ((r.name, sid) :: acc) rs
    (routine :: rest.1, rest.2)

/-- Build one `WeeklySchedule` row from a generated weekly-schedule item:
resolve the day and status leniently, resolve the routine id through the
name map (absence means `None`), and set `IsRestDay` iff no routine. -/
def buildScheduleEntry (m : List (Option String × Nat)) (pid sid : Nat)
    (it : AIScheduleData) : WeeklySchedule :=
  let rid := alistLookup m it.routine_name
  { scheduleId := sid, planId := pid,
    dayOfWeek := resolveDayOfWeek it.day_of_week,
    routineId := rid, status := resolveStatus it.status,
    completedAt := none, userFeedback := none,
    isRestDay := rid.isNone }

/-- Insert the schedule rows in order with autoincremented ids. -/
def buildScheduleEntries (m : List (Option String × Nat)) (pid : Nat) :
    Nat → List AIScheduleData → List WeeklySchedule
  | _, [] => []
  | sid, it :: its =>
    buildScheduleEntry m pid sid it :: buildScheduleEntries m pid (sid + 1) its

/-- The filter of the existing-plan query in `save_ai_workout_plan`: same
user, active, and date range overlapping `[s, e]`. -/
def overlapCond (uid s e : Nat) (p : WorkoutPlan) : Bool :=
  p.userId == uid && p.isActive && decide (p.startDate ≤ e) && decide (s ≤ p.endDate)

/-- Deactivate the row returned by `.first()` on the overlap query: flip
`IsActive` on the first matching plan, leaving the rest untouched. -/
def deactivateFirstOverlap (uid s e : Nat) : List WorkoutPlan → List WorkoutPlan
  | [] => []
  | p :: ps =>
    if overlapCond uid s e p then { p with isActive := false } :: ps
    else p :: deactivateFirstOverlap uid s e ps

/-- Embedding of `save_ai_workout_plan`
(`src/api/modules/ai_backend_integration/services.py`, lines 19-179): require
a truthy `user_id`; compute the current week's Monday and Sunday from today
(`start = today - today.weekday()`, `end = start + 6`); deactivate the first
existing active plan of the user overlapping that window; insert the new plan
(active, version 1, generated by AI), the routine rows with their name map,
and the weekly-schedule rows; commit everything together. -/
def save_ai_workout_plan (st : Store) (resp : AIResponse) (today : Nat) :
    Except String (Store × WorkoutPlan) :=
  match resp.user_id with
  | none => .error "user_id is required in ai_response"
  | some uid =>
    if uid = 0 then .error "user_id is required in ai_response"
    else
      let start_date := today - today % 7
      let end_date := start_date + 6
      let plans' := deactivateFirstOverlap uid start_date end_date st.plans
      let newPlan : WorkoutPlan :=
        { planId := st.nextPlanId, userId := uid, generatedByAI := true,
          startDate := start_date, endDate := end_date, isActive := true,
          planVersion := 1, overview := resp.overview, createdAt := today }
      let built := buildRoutines newPlan.planId st.nextRoutineId [] resp.routines
      let newSchedules :=
        buildScheduleEntries built.2 newPlan.planId st.nextScheduleId resp.weekly_schedule
      .ok ({ st with
              plans := plans' ++ [newPlan],
              routines := st.routines ++ built.1,
              schedules := st.schedules ++ newSchedules,
              nextPlanId := st.nextPlanId + 1,
              nextRoutineId := st.nextRoutineId + resp.routines.length,
              nextScheduleId := st.nextScheduleId + resp.weekly_schedule.length },
            newPlan)

/-! ### Hydrating a plan view -/

/-- JSON values, the possible results of `json.loads`. -/
inductive Json where
  | null
  | bool (b : Bool)
  | num (n : Int)
  | str (s : String)
  | arr (elems : List Json)
  | obj (fields : List (String × Json))
  deriving Repr

/-- Dict key lookup on a parsed JSON object. -/
def lookupField (fields : List (String × Json)) (k : String) : Option Json :=
  match fields.find? (fun p => p.1 == k) with
  | some p => some p.2
  | none => none

/-- The exercise extraction of `_format_workout_plan_response`
(`src/api/modules/daily_schedule/services.py`, lines 49-66): a falsy blob
parses as the empty dict; a parse failure yields the empty list; a dict
containing an `exercises` key yields that value; a list yields itself; any
other shape yields the empty list.  The `json.loads` call is abstracted as
the supplied `parse` function, so the dispatch is verified for every possible
parse outcome. -/
def extract_exercises (parse : String → Except String Json) (blob : Option String) : Json :=
  let parsed : Except String Json :=
    match blob with
    | none => .ok (.obj [])
    | some s => if s = "" then .ok (.obj []) else parse s
  match parsed with
  | .error _ => .arr []
  | .ok (.obj fields) =>
    match lookupField fields "exercises" with
    | some v => v
    | none => .arr []
  | .ok (.arr xs) => .arr xs
  | .ok _ => .arr []

/-- Routine dict of the hydrated view. -/
structure RoutineView where
  routine_id : Nat
  routine_name : Option String
  focus : Option String
  exercises : Json
  deriving Repr

/-- Schedule dict of the hydrated view. -/
structure ScheduleView where
  schedule_id : Nat
  day_of_week : String
  routine_id : Option Nat
  status : String
  is_rest_day : Bool
  completed_at : Option Nat
  user_feedback : Option String
  deriving DecidableEq, Repr

/-- The hydrated view returned by `_format_workout_plan_response`: plan,
routine dicts, and schedule dicts. -/
structure PlanView where
  plan : WorkoutPlan
  routines : List RoutineView
  weekly_schedule : List ScheduleView
  deriving Repr

/-- Embedding of `_format_workout_plan_response`
(`src/api/modules/daily_schedule/services.py`, lines 21-115): fetch the
routines and schedule rows of the plan, parse each routine blob leniently,
and render the enum values. -/
def format_workout_plan_response (parse : String → Except String Json)
    (st : Store) (p : WorkoutPlan) : PlanView :=
  { plan := p,
    routines := (st.routines.filter (fun r => r.planId == p.planId)).map
      (fun r =>
        { routine_id := r.routineId, routine_name := r.routineName,
          focus := r.focus, exercises := extract_exercises parse r.routineJson }),
    weekly_schedule := (st.schedules.filter (fun s => s.planId == p.planId)).map
      (fun s =>
        { schedule_id := s.scheduleId, day_of_week := dayValue s.dayOfWeek,
          routine_id := s.routineId, status := statusValue s.status,
          is_rest_day := s.isRestDay, completed_at := s.completedAt,
          user_feedback := s.userFeedback }) }

/-! ### Get-or-create plan for a date -/

/-- The covering-plan query of `get_user_workout_plan_by_date`: plans of the
user whose range contains the date, ordered by `CreatedAt` descending,
`.first()`.  Among equal timestamps the earlier row is kept (the database
order for ties is unspecified). -/
def pickMostRecent : List WorkoutPlan → Option WorkoutPlan
  | [] => none
  | p :: ps =>
    match pickMostRecent ps with
    | none => some p
    | some q => if q.createdAt > p.createdAt then some q else some p

/-- Query for the plan of the user covering the target date. -/
def planCoversQuery (plans : List WorkoutPlan) (uid d : Nat) : Option WorkoutPlan :=
  pickMostRecent (plans.filter
    (fun p => p.userId == uid && decide (p.startDate ≤ d) && decide (d ≤ p.endDate)))

/-- Outcome of the plan-fetch flow: the hydrated view, or the message of the
raised `ValueError`. -/
inductive FetchResult where
  | ok (view : PlanView)
  | err (msg : String)
  deriving Repr

/-- Python truthiness of the optional numeric columns the generation helper
validates (`None` and `0` are both falsy). -/
def truthyOpt (o : Option Nat) : Bool := o.getD 0 ≠ 0

/-- Embedding of `_generate_first_workout_plan_for_user`
(`src/api/modules/daily_schedule/services.py`, lines 118-292): validate the
user row, the active goal, the height/weight columns, and the goal columns;
invoke the generator and persist its response through `save_ai_workout_plan`
(which commits in its own session); re-query for a plan covering the target
date; raise a wrapped `ValueError` when none is found.  The generated
response is the `resp` argument: the generator itself is external.  (In the
source the response reaches `save_ai_workout_plan` through
`AIService.continue_workout_plan`, whose call site passes two positional
arguments to that one-parameter function; the intended dataflow is modelled,
the arity mismatch is recorded in the analysis of the fetch flow.) -/
def generate_first_workout_plan_for_user (st : Store) (uid target today : Nat)
    (resp : AIResponse) (parse : String → Except String Json) : Store × FetchResult :=
  match findUser st.users uid with
  | none => (st, .err ("User with ID " ++ toString uid ++ " not found"))
  | some user =>
    match get_active_user_goal st uid with
    | none => (st, .err ("No active goal found for user " ++ toString uid ++
        ". Please set up a fitness goal first."))
    | some goal =>
      if ¬ (truthyOpt user.heightCm ∧ truthyOpt user.weightKg) then
        (st, .err ("User " ++ toString uid ++
          " is missing required health data (height/weight)"))
      else if ¬ (truthyOpt goal.targetWeight ∧ truthyOpt goal.targetDurationInWeeks ∧
          truthyOpt goal.noOfWorkoutDaysInWeek) then
        (st, .err ("User " ++ toString uid ++ " has incomplete goal data." ++
          " Please complete your fitness goal setup."))
      else
        match save_ai_workout_plan st resp today with
        | .error e => (st, .err ("Failed to generate workout plan: " ++ e))
        | .ok (st', _) =>
          match planCoversQuery st'.plans uid target with
          | none => (st', .err ("Failed to generate workout plan: " ++
              "Workout plan was generated but not found in database"))
          | some wp => (st', .ok (format_workout_plan_response parse st' wp))

/-- Embedding of `get_user_workout_plan_by_date`
(`src/api/modules/daily_schedule/services.py`, lines 295-343): return the
hydrated view of the plan covering the date when one exists; otherwise run
the generation helper, wrapping its `ValueError` message.  The final `Bool`
records whether the generation path was entered. -/
def get_user_workout_plan_by_date (st : Store) (uid target today : Nat)
    (resp : AIResponse) (parse : String → Except String Json) :
    Store × FetchResult × Bool :=
  match planCoversQuery st.plans uid target with
  | some wp => (st, .ok (format_workout_plan_response parse st wp), false)
  | none =>
    let r := generate_first_workout_plan_for_user st uid target today resp parse
    (r.1,
      (match r.2 with
       | .ok v => .ok v
       | .err m => .err ("Could not generate workout plan: " ++ m)),
      true)

/-! ### Lemmas about row updates -/

theorem findSchedule_update_self (sid : Nat) (f : WeeklySchedule → WeeklySchedule)
    (hf : ∀ s, (f s).scheduleId = s.scheduleId) (l : List WeeklySchedule) :
    findSchedule (updateScheduleFirst sid f l) sid = (findSchedule l sid).map f := by
  induction l with
  | nil => rfl
  | cons s rest ih =>
    by_cases h : (s.scheduleId == sid) = true
    · have h2 : ((f s).scheduleId == sid) = true := by rw [hf]; exact h
      simp [updateScheduleFirst, findSchedule, h, h2, List.find?_cons_of_pos]
    · have h' : (s.scheduleId == sid) = false := by simpa using h
      simp only [updateScheduleFirst, if_neg h]
      simp only [findSchedule, List.find?_cons] at ih ⊢
      simp [h', ih]

theorem findSchedule_update_other (sid sid' : Nat) (f : WeeklySchedule → WeeklySchedule)
    (hf : ∀ s, (f s).scheduleId = s.scheduleId) (hne : sid' ≠ sid)
    (l : List WeeklySchedule) :
    findSchedule (updateScheduleFirst sid f l) sid' = findSchedule l sid' := by
  induction l with
  | nil => rfl
  | cons s rest ih =>
    by_cases h : (s.scheduleId == sid) = true
    · have hs : s.scheduleId = sid := by simpa using h
      have h2 : ((f s).scheduleId == sid') = false := by
        rw [hf, hs]; simpa using fun hc => hne hc.symm
      have h3 : (s.scheduleId == sid') = false := by
        rw [hs]; simpa using fun hc => hne hc.symm
      simp [updateScheduleFirst, findSchedule, h, h2, h3, List.find?_cons]
    · simp only [updateScheduleFirst, if_neg h]
      simp only [findSchedule, List.find?_cons] at ih ⊢
      by_cases h4 : (s.scheduleId == sid') = true
      · simp [h4]
      · have h5 : (s.scheduleId == sid') = false := by simpa using h4
        simp [h5, ih]

theorem map_scheduleId_update (sid : Nat) (f : WeeklySchedule → WeeklySchedule)
    (hf : ∀ s, (f s).scheduleId = s.scheduleId) (l : List WeeklySchedule) :
    (updateScheduleFirst sid f l).map WeeklySchedule.scheduleId =
      l.map WeeklySchedule.scheduleId := by
  induction l with
  | nil => rfl
  | cons s rest ih =>
    by_cases h : (s.scheduleId == sid) = true
    · simp [updateScheduleFirst, h, hf]
    · simp [updateScheduleFirst, h, ih]

theorem mem_update (sid : Nat) (f : WeeklySchedule → WeeklySchedule)
    (l : List WeeklySchedule) (t : WeeklySchedule)
    (ht : t ∈ updateScheduleFirst sid f l) :
    t ∈ l ∨ ∃ s, findSchedule l sid = some s ∧ t = f s := by
  induction l with
  | nil => simp [updateScheduleFirst] at ht
  | cons s rest ih =>
    by_cases h : (s.scheduleId == sid) = true
    · rw [updateScheduleFirst, if_pos h] at ht
      rcases List.mem_cons.mp ht with h1 | h1
      · exact Or.inr ⟨s, by simp [findSchedule, List.find?_cons, h], h1⟩
      · exact Or.inl (List.mem_cons_of_mem _ h1)
    · rw [updateScheduleFirst, if_neg h] at ht
      rcases List.mem_cons.mp ht with h1 | h1
      · exact Or.inl (h1 ▸ List.mem_cons_self _ _)
      · rcases ih h1 with h2 | ⟨u, hu, hu2⟩
        · exact Or.inl (List.mem_cons_of_mem _ h2)
        · refine Or.inr ⟨u, ?_, hu2⟩
          have h5 : (s.scheduleId == sid) = false := by simpa using h
          simpa [findSchedule, List.find?_cons, h5] using hu

theorem findSchedule_mem (l : List WeeklySchedule) (sid : Nat) (e : WeeklySchedule)
    (h : findSchedule l sid = some e) : e ∈ l :=
  List.mem_of_find?_eq_some h

/-- Computation of `swap_routine_mappings` when both rows exist and the ids
differ: the common core of the swap theorems. -/
theorem swap_routine_mappings_eq (st : Store) (sid1 sid2 : Nat)
    (e1 e2 : WeeklySchedule) (hne : sid1 ≠ sid2)
    (h1 : findSchedule st.schedules sid1 = some e1)
    (h2 : findSchedule st.schedules sid2 = some e2) :
    swap_routine_mappings st sid1 sid2 =
      ({ st with
          schedules := updateScheduleFirst sid2
            (fun t => { t with routineId := e1.routineId, status := .swapped })
            (updateScheduleFirst sid1
              (fun t => { t with routineId := e2.routineId, status := .swapped })
              st.schedules) },
        SwapResult.ok { e1 with routineId := e2.routineId, status := .swapped }
                      { e2 with routineId := e1.routineId, status := .swapped }) := by
  have hf : ∀ (r : Option Nat) (s : WeeklySchedule),
      (({ s with routineId := r, status := ScheduleStatus.swapped } :
        WeeklySchedule)).scheduleId = s.scheduleId := fun _ _ => rfl
  have ha : findSchedule (updateScheduleFirst sid1
      (fun t => { t with routineId := e2.routineId, status := .swapped })
      st.schedules) sid1 =
      some { e1 with routineId := e2.routineId, status := .swapped } := by
    rw [findSchedule_update_self _ _ (hf e2.routineId), h1]; rfl
  have hb : findSchedule (updateScheduleFirst sid1
      (fun t => { t with routineId := e2.routineId, status := .swapped })
      st.schedules) sid2 = some e2 := by
    rw [findSchedule_update_other _ _ _ (hf e2.routineId) (Ne.symm hne), h2]
  have hc : findSchedule (updateScheduleFirst sid2
      (fun t => { t with routineId := e1.routineId, status := .swapped })
      (updateScheduleFirst sid1
        (fun t => { t with routineId := e2.routineId, status := .swapped })
        st.schedules)) sid1 =
      some { e1 with routineId := e2.routineId, status := .swapped } := by
    rw [findSchedule_update_other _ _ _ (hf e1.routineId) hne, ha]
  have hd : findSchedule (updateScheduleFirst sid2
      (fun t => { t with routineId := e1.routineId, status := .swapped })
      (updateScheduleFirst sid1
        (fun t => { t with routineId := e2.routineId, status := .swapped })
        st.schedules)) sid2 =
      some { e2 with routineId := e1.routineId, status := .swapped } := by
    rw [findSchedule_update_self _ _ (hf e1.routineId), hb]; rfl
  simp only [swap_routine_mappings, h1, h2, hc, hd, Option.getD_some]

/-- C5: for two existing schedule entries with distinct ids, the swap returns
the two rows with routine ids exchanged and both statuses `swapped` (each
keeping its own `day_of_week`, `user_feedback`, and all other fields), the
post-state rows queried by id show the same values, the row ids of the store
are unchanged (update in place, no delete and reinsert), and swapping the
same pair again restores both original routine ids, leaving both entries in
`swapped` status. -/
theorem swap_exchanges_routines_and_is_involutive (st : Store) (sid1 sid2 : Nat)
    (e1 e2 : WeeklySchedule) (hne : sid1 ≠ sid2)
    (h1 : findSchedule st.schedules sid1 = some e1)
    (h2 : findSchedule st.schedules sid2 = some e2) :
    (swap_routine_mappings st sid1 sid2).2 =
      SwapResult.ok { e1 with routineId := e2.routineId, status := .swapped }
                    { e2 with routineId := e1.routineId, status := .swapped } ∧
    findSchedule (swap_routine_mappings st sid1 sid2).1.schedules sid1 =
      some { e1 with routineId := e2.routineId, status := .swapped } ∧
    findSchedule (swap_routine_mappings st sid1 sid2).1.schedules sid2 =
      some { e2 with routineId := e1.routineId, status := .swapped } ∧
    (swap_routine_mappings st sid1 sid2).1.schedules.map WeeklySchedule.scheduleId =
      st.schedules.map WeeklySchedule.scheduleId ∧
    (swap_routine_mappings (swap_routine_mappings st sid1 sid2).1 sid1 sid2).2 =
      SwapResult.ok { e1 with status := .swapped } { e2 with status := .swapped } ∧
    findSchedule
      (swap_routine_mappings (swap_routine_mappings st sid1 sid2).1 sid1 sid2).1.schedules
      sid1 = some { e1 with status := .swapped } ∧
    findSchedule
      (swap_routine_mappings (swap_routine_mappings st sid1 sid2).1 sid1 sid2).1.schedules
      sid2 = some { e2 with status := .swapped } := by
  have hf : ∀ (r : Option Nat) (s : WeeklySchedule),
      (({ s with routineId := r, status := ScheduleStatus.swapped } :
        WeeklySchedule)).scheduleId = s.scheduleId := fun _ _ => rfl
  have hmain := swap_routine_mappings_eq st sid1 sid2 e1 e2 hne h1 h2
  have hst1 : (swap_routine_mappings st sid1 sid2).1.schedules =
      updateScheduleFirst sid2
        (fun t => { t with routineId := e1.routineId, status := .swapped })
        (updateScheduleFirst sid1
          (fun t => { t with routineId := e2.routineId, status := .swapped })
          st.schedules) := by rw [hmain]
  have hc : findSchedule (swap_routine_mappings st sid1 sid2).1.schedules sid1 =
      some { e1 with routineId := e2.routineId, status := .swapped } := by
    rw [hst1, findSchedule_update_other _ _ _ (hf e1.routineId) hne,
      findSchedule_update_self _ _ (hf e2.routineId), h1]; rfl
  have hd : findSchedule (swap_routine_mappings st sid1 sid2).1.schedules sid2 =
      some { e2 with routineId := e1.routineId, status := .swapped } := by
    rw [hst1, findSchedule_update_self _ _ (hf e1.routineId),
      findSchedule_update_other _ _ _ (hf e2.routineId) (Ne.symm hne), h2]; rfl
  have hsecond := swap_routine_mappings_eq (swap_routine_mappings st sid1 sid2).1
    sid1 sid2 _ _ hne hc hd
  have hst2 : (swap_routine_mappings (swap_routine_mappings st sid1 sid2).1 sid1 sid2).1.schedules =
      updateScheduleFirst sid2
        (fun t => { t with routineId := e2.routineId, status := .swapped })
        (updateScheduleFirst sid1
          (fun t => { t with routineId := e1.routineId, status := .swapped })
          (swap_routine_mappings st sid1 sid2).1.schedules) := by
    rw [hsecond]
  refine ⟨by rw [hmain], hc, hd, ?_, by rw [hsecond], ?_, ?_⟩
  · rw [hst1, map_scheduleId_update _ _ (hf e1.routineId),
      map_scheduleId_update _ _ (hf e2.routineId)]
  · rw [hst2, findSchedule_update_other _ _ _ (hf e2.routineId) hne,
      findSchedule_update_self _ _ (hf e1.routineId), hc]; rfl
  · rw [hst2, findSchedule_update_self _ _ (hf e2.routineId),
      findSchedule_update_other _ _ _ (hf e1.routineId) (Ne.symm hne), hd]; rfl

/-- A schedule entry holding a routine, used for concrete instantiations. -/
def entA : WeeklySchedule :=
  { scheduleId := 1, planId := 1, dayOfWeek := .monday, routineId := some 10,
    status := .pending, completedAt := none, userFeedback := some "felt good",
    isRestDay := false }

/-- A second schedule entry, a rest day. -/
def entB : WeeklySchedule :=
  { scheduleId := 2, planId := 1, dayOfWeek := .tuesday, routineId := none,
    status := .pending, completedAt := none, userFeedback := none,
    isRestDay := true }

/-- A store holding the two concrete schedule entries and nothing else. -/
def stTwoEntries : Store :=
  { users := [], goals := [], plans := [], routines := [],
    schedules := [entA, entB], history := [],
    nextPlanId := 1, nextRoutineId := 1, nextScheduleId := 3, nextHistoryId := 1 }

theorem swap_exchanges_routines_witness :
    (swap_routine_mappings stTwoEntries 1 2).2 =
      SwapResult.ok { entA with routineId := entB.routineId, status := .swapped }
                    { entB with routineId := entA.routineId, status := .swapped } :=
  (swap_exchanges_routines_and_is_involutive stTwoEntries 1 2 entA entB
    (by decide) (by decide) (by decide)).1

/-- C10: the swap performs no status check at all: whatever the current
statuses of the two (existing, distinct) entries are — `completed` included —
the swap succeeds (never a not-found or any other failure), exchanges the
routine ids, overwrites both statuses with `swapped`, and leaves the
completion history untouched. -/
theorem swap_has_no_status_precondition (st : Store) (sid1 sid2 : Nat)
    (e1 e2 : WeeklySchedule) (hne : sid1 ≠ sid2)
    (h1 : findSchedule st.schedules sid1 = some e1)
    (h2 : findSchedule st.schedules sid2 = some e2) :
    (swap_routine_mappings st sid1 sid2).2 =
      SwapResult.ok { e1 with routineId := e2.routineId, status := .swapped }
                    { e2 with routineId := e1.routineId, status := .swapped } ∧
    (∀ m, (swap_routine_mappings st sid1 sid2).2 ≠ SwapResult.notFound m) ∧
    (swap_routine_mappings st sid1 sid2).1.history = st.history := by
  have hmain := swap_routine_mappings_eq st sid1 sid2 e1 e2 hne h1 h2
  refine ⟨by rw [hmain], fun m hm => ?_, by rw [hmain]⟩
  rw [hmain] at hm
  exact SwapResult.noConfusion hm

/-- A completed schedule entry, to instantiate the no-precondition theorem. -/
def entCompleted : WeeklySchedule :=
  { scheduleId := 1, planId := 1, dayOfWeek := .monday, routineId := some 10,
    status := .completed, completedAt := some 5, userFeedback := none,
    isRestDay := false }

/-- Store with a completed entry besides a pending rest day. -/
def stCompletedEntry : Store :=
  { stTwoEntries with schedules := [entCompleted, entB] }

theorem swap_has_no_status_precondition_witness :
    (swap_routine_mappings stCompletedEntry 1 2).2 =
      SwapResult.ok { entCompleted with routineId := entB.routineId, status := .swapped }
                    { entB with routineId := entCompleted.routineId, status := .swapped } :=
  (swap_has_no_status_precondition stCompletedEntry 1 2 entCompleted entB
    (by decide) (by decide) (by decide)).1

/-- Store with one entry of the given status under id 1. -/
def stWithStatus (s : ScheduleStatus) : Store :=
  { stTwoEntries with schedules := [{ entA with status := s }] }

/-- C1 (code bug in the source): the status guard of `start_workout_session`
rejects only `completed`.  An entry whose status is `started`, `skipped`, or
`swapped` is not rejected with the documented error — its status is silently
overwritten with `started` and the updated entry is returned — while the
function's own docstring, inline comment, and error text (`expected
pending`) all describe a pending-only guard.  A `pending` entry transitions
to `started` and a `completed` entry is rejected, as documented. -/
theorem start_session_guard_rejects_only_completed :
    (start_workout_session (stWithStatus .pending) 1).2 =
      StartResult.ok { entA with status := .started } ∧
    (start_workout_session (stWithStatus .started) 1).2 =
      StartResult.ok { entA with status := .started } ∧
    (start_workout_session (stWithStatus .skipped) 1).2 =
      StartResult.ok { entA with status := .started } ∧
    (start_workout_session (stWithStatus .swapped) 1).2 =
      StartResult.ok { entA with status := .started } ∧
    (start_workout_session (stWithStatus .completed) 1) =
      (stWithStatus .completed, StartResult.invalidState
        "Cannot start session. Current status is completed, expected pending") ∧
    findSchedule (start_workout_session (stWithStatus .skipped) 1).1.schedules 1 =
      some { entA with status := .started } := by
  refine ⟨rfl, rfl, rfl, rfl, ?_, rfl⟩
  decide

/-- C6 counterexample: on an unknown schedule id, `start_workout_session`
does not fail with a not-found error — it returns `None` and leaves the
store untouched (the HTTP layer, not the service, later turns that `None`
into a 404). -/
theorem start_session_unknown_id_returns_none :
    start_workout_session { stTwoEntries with schedules := [] } 1 =
      ({ stTwoEntries with schedules := [] }, StartResult.noneNotFound) := rfl

/-- C6 (amended): for a schedule id not present in the store,
`start_workout_session` returns `None` (no error raised, no entry updated,
store unchanged); `swap_routine_mappings` raises `LookupError` naming
whichever of its two ids is missing, leaving the store unchanged. -/
theorem missing_id_behaviour (st : Store) (sid sid1 sid2 : Nat) :
    (findSchedule st.schedules sid = none →
      start_workout_session st sid = (st, StartResult.noneNotFound)) ∧
    (findSchedule st.schedules sid1 = none →
      swap_routine_mappings st sid1 sid2 =
        (st, SwapResult.notFound ("Schedule with ID " ++ toString sid1 ++ " not found"))) ∧
    (∀ e1, findSchedule st.schedules sid1 = some e1 →
      findSchedule st.schedules sid2 = none →
      swap_routine_mappings st sid1 sid2 =
        (st, SwapResult.notFound ("Schedule with ID " ++ toString sid2 ++ " not found"))) := by
  refine ⟨fun h => ?_, fun h => ?_, fun e1 h1 h2 => ?_⟩
  · simp [start_workout_session, h]
  · simp [swap_routine_mappings, h]
  · simp [swap_routine_mappings, h1, h2]

theorem missing_id_behaviour_witness :
    start_workout_session stTwoEntries 5 = (stTwoEntries, StartResult.noneNotFound) ∧
    swap_routine_mappings stTwoEntries 5 1 =
      (stTwoEntries, SwapResult.notFound ("Schedule with ID " ++ toString 5 ++ " not found")) ∧
    swap_routine_mappings stTwoEntries 1 7 =
      (stTwoEntries, SwapResult.notFound ("Schedule with ID " ++ toString 7 ++ " not found")) :=
  ⟨(missing_id_behaviour stTwoEntries 5 5 1).1 (by decide),
   (missing_id_behaviour stTwoEntries 5 5 1).2.1 (by decide),
   (missing_id_behaviour stTwoEntries 1 1 7).2.2 entA (by decide) (by decide)⟩

/-! ### The rest-day invariant -/

/-- The invariant claimed for all schedule rows:
`is_rest_day == (routine_id is None)`. -/
def RestDayInv (l : List WeeklySchedule) : Prop :=
  ∀ e ∈ l, e.isRestDay = e.routineId.isNone

instance (l : List WeeklySchedule) : Decidable (RestDayInv l) :=
  List.decidableBAll _ l

/-- C3 counterexample: swapping an entry holding a routine (entry 1) with a
rest-day entry (entry 2) leaves both `is_rest_day` flags stale — the swap
updates `RoutineId` and `Status` only — so the invariant is false on the
post-swap store. -/
theorem rest_day_invariant_broken_by_swap :
    ¬ RestDayInv (swap_routine_mappings stTwoEntries 1 2).1.schedules := by
  decide

theorem restDayInv_update (l : List WeeklySchedule) (sid : Nat)
    (f : WeeklySchedule → WeeklySchedule)
    (hf : ∀ s, (f s).isRestDay = s.isRestDay ∧ (f s).routineId = s.routineId)
    (h : RestDayInv l) : RestDayInv (updateScheduleFirst sid f l) := by
  intro t ht
  rcases mem_update sid f l t ht with h1 | ⟨s, hs, rfl⟩
  · exact h t h1
  · rw [(hf s).1, (hf s).2]
    exact h s (findSchedule_mem l sid s hs)

theorem restDayInv_buildScheduleEntries (m : List (Option String × Nat))
    (pid sid : Nat) (its : List AIScheduleData) :
    RestDayInv (buildScheduleEntries m pid sid its) := by
  induction its generalizing sid with
  | nil => intro e he; simp [buildScheduleEntries] at he
  | cons it rest ih =>
    intro e he
    rcases List.mem_cons.mp he with h1 | h1
    · subst h1; rfl
    · exact ih (sid + 1) e h1

/-- Destructuring a successful `save_ai_workout_plan`: the new store appends
the built schedule rows to the old ones. -/
theorem save_ai_workout_plan_schedules (st : Store) (resp : AIResponse)
    (today : Nat) (st' : Store) (p : WorkoutPlan)
    (h : save_ai_workout_plan st resp today = .ok (st', p)) :
    st'.schedules = st.schedules ++
      buildScheduleEntries
        (buildRoutines st.nextPlanId st.nextRoutineId [] resp.routines).2
        st.nextPlanId st.nextScheduleId resp.weekly_schedule := by
  unfold save_ai_workout_plan at h
  split at h
  · exact absurd h (by simp)
  · split at h
    · exact absurd h (by simp)
    · simp only [Except.ok.injEq, Prod.mk.injEq] at h
      rw [← h.1]

/-- C3 (amended): the equality `is_rest_day == (routine_id is None)` is
established at plan creation and preserved by `start_workout_session` and
`log_workout_completion` (which never touch either field), but
`swap_routine_mappings` does not recompute `is_rest_day`: it preserves the
invariant only when the two swapped entries agree on whether they hold a
routine; swapping a routine entry with a rest-day entry violates it (see the
counterexample). -/
theorem rest_day_invariant_except_mixed_swap :
    (∀ (st : Store) (resp : AIResponse) (today : Nat) (st' : Store) (p : WorkoutPlan),
      save_ai_workout_plan st resp today = .ok (st', p) →
      RestDayInv st.schedules → RestDayInv st'.schedules) ∧
    (∀ (st : Store) (sid : Nat),
      RestDayInv st.schedules →
      RestDayInv (start_workout_session st sid).1.schedules) ∧
    (∀ (st : Store) (sid uid pid rid : Nat) (w : Option Nat) (n : Option String)
        (today now : Nat),
      RestDayInv st.schedules →
      RestDayInv (log_workout_completion st sid uid pid rid w n today now).1.schedules) ∧
    (∀ (st : Store) (sid1 sid2 : Nat) (e1 e2 : WeeklySchedule),
      findSchedule st.schedules sid1 = some e1 →
      findSchedule st.schedules sid2 = some e2 →
      e1.routineId.isNone = e2.routineId.isNone →
      RestDayInv st.schedules →
      RestDayInv (swap_routine_mappings st sid1 sid2).1.schedules) := by
  refine ⟨?_, ?_, ?_, ?_⟩
  · intro st resp today st' p h hinv
    rw [save_ai_workout_plan_schedules st resp today st' p h]
    intro e he
    rcases List.mem_append.mp he with h1 | h1
    · exact hinv e h1
    · exact restDayInv_buildScheduleEntries _ _ _ _ e h1
  · intro st sid hinv
    unfold start_workout_session
    cases hfind : findSchedule st.schedules sid with
    | none => exact hinv
    | some s =>
      by_cases hc : s.status = .completed
      · simp only [if_pos hc]; exact hinv
      · simp only [if_neg hc]
        exact restDayInv_update _ _ _ (fun t => ⟨rfl, rfl⟩) hinv
  · intro st sid uid pid rid w n today now hinv
    unfold log_workout_completion
    cases hu : findUser st.users uid with
    | none => exact hinv
    | some u =>
      cases hfind : findSchedule st.schedules sid with
      | none => exact hinv
      | some s =>
        by_cases hc : s.status ≠ .started
        · simp only [if_pos hc]; exact hinv
        · simp only [if_neg hc]
          exact restDayInv_update _ _ _ (fun t => ⟨rfl, rfl⟩) hinv
  · intro st sid1 sid2 e1 e2 h1 h2 heq hinv
    unfold swap_routine_mappings
    simp only [h1, h2]
    intro t ht
    rcases mem_update _ _ _ t ht with hA | ⟨s, hs, rfl⟩
    · rcases mem_update _ _ _ t hA with hB | ⟨s, hs, rfl⟩
      · exact hinv t hB
      · rw [h1] at hs
        injection hs with hse
        subst hse
        show e1.isRestDay = e2.routineId.isNone
        rw [hinv e1 (findSchedule_mem _ _ _ h1)]
        exact heq
    · by_cases hss : sid2 = sid1
      · subst hss
        rw [findSchedule_update_self sid2
          (fun t => { t with routineId := e2.routineId, status := .swapped })
          (fun _ => rfl), h2, Option.map_some'] at hs
        injection hs with hse
        subst hse
        show e2.isRestDay = e1.routineId.isNone
        rw [hinv e2 (findSchedule_mem _ _ _ h2)]
        exact heq.symm
      · rw [findSchedule_update_other sid1 sid2
          (fun t => { t with routineId := e2.routineId, status := .swapped })
          (fun _ => rfl) hss, h2] at hs
        injection hs with hse
        subst hse
        show e2.isRestDay = e1.routineId.isNone
        rw [hinv e2 (findSchedule_mem _ _ _ h2)]
        exact heq.symm

/-- The empty store. -/
def stEmpty : Store :=
  { users := [], goals := [], plans := [], routines := [], schedules := [],
    history := [], nextPlanId := 1, nextRoutineId := 1, nextScheduleId := 1,
    nextHistoryId := 1 }

/-- A generated rest-day schedule item: its routine name resolves to nothing
because the response carries no routines. -/
def itemRest : AIScheduleData :=
  { day_of_week := some "friday", routine_name := some "X", status := none }

/-- Response wrapping the single rest-day item. -/
def respRest : AIResponse :=
  { user_id := some 1, routines := [], weekly_schedule := [itemRest], overview := "" }

/-- The plan row `save_ai_workout_plan stEmpty respRest 2` creates. -/
def planV : WorkoutPlan :=
  { planId := 1, userId := 1, generatedByAI := true, startDate := 0, endDate := 6,
    isActive := true, planVersion := 1, overview := "", createdAt := 2 }

/-- The schedule row that save creates for the rest-day item. -/
def entryV : WeeklySchedule :=
  { scheduleId := 1, planId := 1, dayOfWeek := .friday, routineId := none,
    status := .pending, completedAt := none, userFeedback := none,
    isRestDay := true }

/-- The store after `save_ai_workout_plan stEmpty respRest 2`. -/
def stAfterSave : Store :=
  { stEmpty with
    plans := [planV],
    schedules := [entryV],
    nextPlanId := 2,
    nextScheduleId := 2 }

/-- Two entries that both hold routines, so a swap preserves the rest-day
invariant. -/
def stTwoRoutines : Store :=
  { stTwoEntries with
    schedules := [entA, { entB with routineId := some 11, isRestDay := false }] }

theorem rest_day_invariant_except_mixed_swap_witness :
    RestDayInv stAfterSave.schedules ∧
    RestDayInv (start_workout_session stTwoEntries 1).1.schedules ∧
    RestDayInv (swap_routine_mappings stTwoRoutines 1 2).1.schedules :=
  ⟨rest_day_invariant_except_mixed_swap.1 stEmpty respRest 2 stAfterSave planV
      (by rfl) (by decide),
   rest_day_invariant_except_mixed_swap.2.1 stTwoEntries 1 (by decide),
   rest_day_invariant_except_mixed_swap.2.2.2 stTwoRoutines 1 2 entA
      { entB with routineId := some 11, isRestDay := false }
      (by decide) (by decide) (by decide) (by decide)⟩

/-! ### Completing a session -/

/-- C4: for an existing user and an existing schedule entry, completing a
session with status exactly `started` creates exactly one new completion
record — dated today, `is_completed = true` — sets the entry's status to
`completed` with its `completed_at` timestamp, and returns the record; on any
other status it fails with the invalid-state error naming the actual and the
expected status, creating no record and changing nothing. -/
theorem complete_session_requires_started (st : Store) (sid uid pid rid : Nat)
    (w : Option Nat) (notes : Option String) (today now : Nat)
    (u : UserRec) (e : WeeklySchedule)
    (hu : findUser st.users uid = some u)
    (hs : findSchedule st.schedules sid = some e) :
    (e.status = .started →
      (log_workout_completion st sid uid pid rid w notes today now).2 =
        CompletionResult.ok
          { historyId := st.nextHistoryId, planId := pid, routineId := rid,
            scheduleId := sid, userId := uid, date := today, isCompleted := true,
            todayWeight := w, workoutNotes := notes } ∧
      (log_workout_completion st sid uid pid rid w notes today now).1.history =
        st.history ++
          [{ historyId := st.nextHistoryId, planId := pid, routineId := rid,
             scheduleId := sid, userId := uid, date := today, isCompleted := true,
             todayWeight := w, workoutNotes := notes }] ∧
      findSchedule
        (log_workout_completion st sid uid pid rid w notes today now).1.schedules sid =
        some { e with status := .completed, completedAt := some now }) ∧
    (e.status ≠ .started →
      log_workout_completion st sid uid pid rid w notes today now =
        (st, CompletionResult.invalidState
          ("Cannot complete workout. Current status is " ++ statusValue e.status ++
            ", expected started"))) := by
  constructor
  · intro hst
    have hcond : ¬ (e.status ≠ ScheduleStatus.started) := by simp [hst]
    unfold log_workout_completion
    simp only [hu, hs, if_neg hcond]
    refine ⟨by trivial, by trivial, ?_⟩
    rw [findSchedule_update_self sid
      (fun t => { t with status := .completed, completedAt := some now })
      (fun _ => rfl), hs]
    rfl
  · intro hst
    unfold log_workout_completion
    simp only [hu, hs, if_pos hst]

/-- A user row for concrete completion runs. -/
def userW : UserRec :=
  { userId := 1, heightCm := some 170, weightKg := some 70, currentWeight := some 70 }

/-- Store holding the user and one started entry. -/
def stStarted : Store :=
  { stEmpty with users := [userW], schedules := [{ entA with status := .started }] }

/-- Store holding the user and one pending entry. -/
def stPending : Store :=
  { stEmpty with users := [userW], schedules := [entA] }

theorem complete_session_requires_started_witness :
    (log_workout_completion stStarted 1 1 1 10 none none 3 100).2 =
      CompletionResult.ok
        { historyId := 1, planId := 1, routineId := 10, scheduleId := 1,
          userId := 1, date := 3, isCompleted := true, todayWeight := none,
          workoutNotes := none } ∧
    log_workout_completion stPending 1 1 1 10 none none 3 100 =
      (stPending, CompletionResult.invalidState
        ("Cannot complete workout. Current status is " ++ statusValue entA.status ++
          ", expected started")) :=
  ⟨((complete_session_requires_started stStarted 1 1 1 10 none none 3 100 userW
      { entA with status := .started } (by decide) (by decide)).1 (by decide)).1,
   (complete_session_requires_started stPending 1 1 1 10 none none 3 100 userW
      entA (by decide) (by decide)).2 (by decide)⟩

/-! ### Streak and stats -/

theorem live_streak_all_completed (hist : List CompletionRecord) (uid : Nat) :
    ∀ today, ∀ i < live_streak hist uid today,
      completedOn hist uid (today - i) = true := by
  intro today
  induction today with
  | zero =>
    intro i hi
    by_cases hc : completedOn hist uid 0 = true
    · simp only [live_streak, hc, if_true] at hi
      interval_cases i
      simpa using hc
    · simp only [live_streak, Bool.not_eq_true] at hi
      rw [Bool.not_eq_true] at hc
      simp [hc] at hi
  | succ d ih =>
    intro i hi
    by_cases hc : completedOn hist uid (d + 1) = true
    · simp only [live_streak, hc, if_true] at hi
      cases i with
      | zero => simpa using hc
      | succ j =>
        have hj : j < live_streak hist uid d := by omega
        have := ih j hj
        simpa [Nat.succ_sub_succ] using this
    · rw [Bool.not_eq_true] at hc
      simp [live_streak, hc] at hi

theorem live_streak_stops_at_gap (hist : List CompletionRecord) (uid : Nat) :
    ∀ today, live_streak hist uid today = today + 1 ∨
      completedOn hist uid (today - live_streak hist uid today) = false := by
  intro today
  induction today with
  | zero =>
    by_cases hc : completedOn hist uid 0 = true
    · left; simp [live_streak, hc]
    · right
      rw [Bool.not_eq_true] at hc
      simp [live_streak, hc]
  | succ d ih =>
    by_cases hc : completedOn hist uid (d + 1) = true
    · rcases ih with h | h
      · left; simp [live_streak, hc, h]
      · right
        simp only [live_streak, hc, if_true]
        simpa [Nat.succ_sub_succ] using h
    · right
      rw [Bool.not_eq_true] at hc
      simp [live_streak, hc]

theorem live_streak_zero_of_today_missed (hist : List CompletionRecord)
    (uid today : Nat) (h : completedOn hist uid today = false) :
    live_streak hist uid today = 0 := by
  cases today with
  | zero => simp [live_streak, h]
  | succ d => simp [live_streak, h]

/-- C7: the streak of `get_user_stats` counts exactly the consecutive
completed days ending at today: every day within the streak (walking
backwards from today) has a completed record, and the walk stops at the
first day without one — unless the streak already covers every representable
day back to the epoch; a missed today yields streak 0 regardless of older
history.  `missed_yesterday` equals the direct query for a completed record
dated yesterday, independent of the streak walk. -/
theorem stats_streak_and_missed_yesterday (st : Store) (uid today : Nat) :
    (∀ i < (get_user_stats st uid today).liveStreak,
      completedOn st.history uid (today - i) = true) ∧
    ((get_user_stats st uid today).liveStreak = today + 1 ∨
      completedOn st.history uid
        (today - (get_user_stats st uid today).liveStreak) = false) ∧
    (completedOn st.history uid today = false →
      (get_user_stats st uid today).liveStreak = 0) ∧
    (get_user_stats st uid today).yesterdayMissedWorkout =
      !(completedOn st.history uid (today - 1)) := by
  refine ⟨?_, ?_, ?_, rfl⟩
  · exact live_streak_all_completed st.history uid today
  · exact live_streak_stops_at_gap st.history uid today
  · exact live_streak_zero_of_today_missed st.history uid today

/-- A completed record for user 1 on the given day. -/
def recAt (d : Nat) : CompletionRecord :=
  { historyId := d, planId := 1, routineId := 10, scheduleId := 1, userId := 1,
    date := d, isCompleted := true, todayWeight := none, workoutNotes := none }

/-- History with completed days 3, 2, 1 and a gap at 0. -/
def stHist : Store := { stEmpty with history := [recAt 3, recAt 2, recAt 1] }

/-- History missing day 3 (the query date). -/
def stHistMissedToday : Store := { stEmpty with history := [recAt 2, recAt 1] }

theorem stats_streak_and_missed_yesterday_witness :
    completedOn stHist.history 1 (3 - 1) = true ∧
    ((get_user_stats stHist 1 3).liveStreak = 3 + 1 ∨
      completedOn stHist.history 1 (3 - (get_user_stats stHist 1 3).liveStreak) = false) ∧
    (get_user_stats stHistMissedToday 1 3).liveStreak = 0 ∧
    (get_user_stats stHist 1 3).yesterdayMissedWorkout =
      !(completedOn stHist.history 1 (3 - 1)) :=
  ⟨(stats_streak_and_missed_yesterday stHist 1 3).1 1 (by decide),
   (stats_streak_and_missed_yesterday stHist 1 3).2.1,
   (stats_streak_and_missed_yesterday stHistMissedToday 1 3).2.2.1 (by decide),
   (stats_streak_and_missed_yesterday stHist 1 3).2.2.2⟩

/-! ### The one-active-plan-per-window invariant -/

/-- The active-plans-covering-a-date query condition. -/
def activeCover (uid d : Nat) (p : WorkoutPlan) : Bool :=
  p.isActive && p.userId == uid && decide (p.startDate ≤ d) && decide (d ≤ p.endDate)

/-- Number of active plans of the user covering the date. -/
def countActiveCovering (plans : List WorkoutPlan) (uid d : Nat) : Nat :=
  (plans.filter (activeCover uid d)).length

/-- A plan whose range is a calendar week: `start` on a Monday (day number
divisible by 7) and `end = start + 6`.  Every plan the service creates has
this shape. -/
def weekAligned (p : WorkoutPlan) : Prop :=
  p.startDate % 7 = 0 ∧ p.endDate = p.startDate + 6

instance (p : WorkoutPlan) : Decidable (weekAligned p) := by
  unfold weekAligned; infer_instance

/-- Two plans do not both count as active, same-user, and overlapping. -/
def PlansCompatible (p q : WorkoutPlan) : Prop :=
  ¬(p.isActive = true ∧ q.isActive = true ∧ p.userId = q.userId ∧
    p.startDate ≤ q.endDate ∧ q.startDate ≤ p.endDate)

instance (p q : WorkoutPlan) : Decidable (PlansCompatible p q) := by
  unfold PlansCompatible; infer_instance

theorem filter_length_le_one_of_pairwise {α : Type} (p : α → Bool)
    (R : α → α → Prop) (l : List α) (hl : l.Pairwise R)
    (h : ∀ a b, R a b → p a = true → p b = true → False) :
    (l.filter p).length ≤ 1 := by
  induction l with
  | nil => simp
  | cons a l ih =>
    rcases List.pairwise_cons.mp hl with ⟨ha, hl'⟩
    by_cases hp : p a = true
    · have hnil : l.filter p = [] := by
        rw [List.filter_eq_nil_iff]
        intro b hb hpb
        exact h a b (ha b hb) hp hpb
      simp [List.filter_cons, hp, hnil]
    · have hp' : p a = false := by simpa using hp
      simp only [List.filter_cons, hp', Bool.false_eq_true, if_false]
      exact ih hl'

theorem mem_deactivateFirstOverlap (uid s e : Nat) (l : List WorkoutPlan)
    (q : WorkoutPlan) (hq : q ∈ deactivateFirstOverlap uid s e l) :
    q ∈ l ∨ ∃ p ∈ l, q = { p with isActive := false } := by
  induction l with
  | nil => simp [deactivateFirstOverlap] at hq
  | cons p ps ih =>
    by_cases hc : overlapCond uid s e p = true
    · rw [deactivateFirstOverlap, if_pos hc] at hq
      rcases List.mem_cons.mp hq with rfl | hq2
      · exact Or.inr ⟨p, List.mem_cons_self _ _, rfl⟩
      · exact Or.inl (List.mem_cons_of_mem _ hq2)
    · rw [deactivateFirstOverlap, if_neg hc] at hq
      rcases List.mem_cons.mp hq with rfl | hq2
      · exact Or.inl (List.mem_cons_self _ _)
      · rcases ih hq2 with h1 | ⟨r, hr, h2⟩
        · exact Or.inl (List.mem_cons_of_mem _ h1)
        · exact Or.inr ⟨r, List.mem_cons_of_mem _ hr, h2⟩

theorem weekAligned_deactivate (uid s e : Nat) (l : List WorkoutPlan)
    (hal : ∀ p ∈ l, weekAligned p) :
    ∀ q ∈ deactivateFirstOverlap uid s e l, weekAligned q := by
  intro q hq
  rcases mem_deactivateFirstOverlap uid s e l q hq with h1 | ⟨r, hr, rfl⟩
  · exact hal q h1
  · exact hal r hr

/-- Two week-aligned starts whose weeks meet are equal. -/
theorem week_start_eq (a b : Nat) (ha : a % 7 = 0) (hb : b % 7 = 0)
    (h1 : a ≤ b + 6) (h2 : b ≤ a + 6) : a = b := by omega

/-- After the deactivation pass, no remaining plan satisfies the overlap
condition for the window, provided the store held at most one such plan
(pairwise compatibility) and all plans are week-aligned. -/
theorem deactivate_clears_overlap (uid s : Nat) (l : List WorkoutPlan)
    (hpair : l.Pairwise PlansCompatible) (hal : ∀ p ∈ l, weekAligned p)
    (hs : s % 7 = 0) :
    ∀ q ∈ deactivateFirstOverlap uid s (s + 6) l,
      overlapCond uid s (s + 6) q = false := by
  induction l with
  | nil => simp [deactivateFirstOverlap]
  | cons p ps ih =>
    rcases List.pairwise_cons.mp hpair with ⟨hp, hps⟩
    intro q hq
    by_cases hc : overlapCond uid s (s + 6) p = true
    · rw [deactivateFirstOverlap, if_pos hc] at hq
      rcases List.mem_cons.mp hq with rfl | hq2
      · simp [overlapCond]
      · by_contra hq3
        rw [Bool.not_eq_false] at hq3
        simp only [overlapCond, Bool.and_eq_true, beq_iff_eq,
          decide_eq_true_eq] at hc hq3
        obtain ⟨⟨⟨hpu, hpa⟩, hp1⟩, hp2⟩ := hc
        obtain ⟨⟨⟨hqu, hqa⟩, hq1⟩, hq2'⟩ := hq3
        obtain ⟨hpw1, hpw2⟩ := hal p (List.mem_cons_self _ _)
        obtain ⟨hqw1, hqw2⟩ := hal q (List.mem_cons_of_mem _ hq2)
        have hps' : p.startDate = s := by
          apply week_start_eq _ _ hpw1 hs hp1 (by omega)
        have hqs : q.startDate = s := by
          apply week_start_eq _ _ hqw1 hs hq1 (by omega)
        exact hp q hq2 ⟨hpa, hqa, by rw [hpu, hqu], by omega, by omega⟩
    · rw [deactivateFirstOverlap, if_neg hc] at hq
      rcases List.mem_cons.mp hq with rfl | hq2
      · simpa using hc
      · exact ih hps (fun r hr => hal r (List.mem_cons_of_mem _ hr)) q hq2

theorem pairwise_deactivate (uid s e : Nat) (l : List WorkoutPlan)
    (h : l.Pairwise PlansCompatible) :
    (deactivateFirstOverlap uid s e l).Pairwise PlansCompatible := by
  induction l with
  | nil => simp [deactivateFirstOverlap]
  | cons p ps ih =>
    rcases List.pairwise_cons.mp h with ⟨hp, hps⟩
    by_cases hc : overlapCond uid s e p = true
    · rw [deactivateFirstOverlap, if_pos hc]
      refine List.pairwise_cons.mpr ⟨?_, hps⟩
      intro q _ hcon
      simpa using hcon.1
    · rw [deactivateFirstOverlap, if_neg hc]
      refine List.pairwise_cons.mpr ⟨?_, ih hps⟩
      intro q hq
      rcases mem_deactivateFirstOverlap _ _ _ _ _ hq with hq1 | ⟨r, hr, rfl⟩
      · exact hp q hq1
      · intro hcon
        simpa using hcon.2.1

/-- The plan row a successful save creates. -/
def newPlanOf (st : Store) (resp : AIResponse) (uid today : Nat) : WorkoutPlan :=
  { planId := st.nextPlanId, userId := uid, generatedByAI := true,
    startDate := today - today % 7, endDate := today - today % 7 + 6,
    isActive := true, planVersion := 1, overview := resp.overview,
    createdAt := today }

/-- Destructuring a successful `save_ai_workout_plan`: the plan list of the
new store, and the created plan itself. -/
theorem save_ai_workout_plan_ok (st : Store) (resp : AIResponse)
    (today uid : Nat) (st' : Store) (plan : WorkoutPlan)
    (hresp : resp.user_id = some uid)
    (hsave : save_ai_workout_plan st resp today = .ok (st', plan)) :
    st'.plans = deactivateFirstOverlap uid (today - today % 7)
        (today - today % 7 + 6) st.plans ++ [plan] ∧
    plan = newPlanOf st resp uid today := by
  unfold save_ai_workout_plan at hsave
  split at hsave
  · exact absurd hsave (by simp)
  · rename_i uid2 heq
    rw [hresp] at heq
    injection heq with heq2
    subst heq2
    split at hsave
    · exact absurd hsave (by simp)
    · simp only [Except.ok.injEq, Prod.mk.injEq] at hsave
      obtain ⟨h1, h2⟩ := hsave
      constructor
      · rw [← h1, ← h2]
      · exact h2.symm

/-- C2: starting from a store in which all plans are week-aligned and no two
active plans of one user overlap, a successful `save_ai_workout_plan` yields
a store in which exactly one active plan of the user covers each date of the
current week, at most one active plan of any user covers any date (the
invariant is preserved, together with week alignment), and the created plan
is the active one covering the window; moreover in the prior store any date
covered by some active plan of the user was covered by exactly one. -/
theorem plan_overlap_invariant (st : Store) (resp : AIResponse)
    (today uid : Nat) (st' : Store) (plan : WorkoutPlan)
    (hresp : resp.user_id = some uid)
    (hsave : save_ai_workout_plan st resp today = .ok (st', plan))
    (halign : ∀ p ∈ st.plans, weekAligned p)
    (hpair : st.plans.Pairwise PlansCompatible) :
    (∀ d, today - today % 7 ≤ d → d ≤ today - today % 7 + 6 →
      countActiveCovering st'.plans uid d = 1) ∧
    (∀ uid' d, countActiveCovering st'.plans uid' d ≤ 1) ∧
    (∀ p ∈ st'.plans, weekAligned p) ∧
    st'.plans.Pairwise PlansCompatible ∧
    plan.isActive = true ∧ plan.userId = uid ∧
    plan.startDate = today - today % 7 ∧
    plan.endDate = today - today % 7 + 6 ∧ plan ∈ st'.plans ∧
    (∀ d, (∃ p ∈ st.plans, activeCover uid d p = true) →
      countActiveCovering st.plans uid d = 1) := by
  obtain ⟨hplans, hplan⟩ := save_ai_workout_plan_ok st resp today uid st' plan
    hresp hsave
  subst hplan
  have hs7 : (today - today % 7) % 7 = 0 := by omega
  have hcompat : ∀ (uid' d : Nat) (a b : WorkoutPlan), PlansCompatible a b →
      activeCover uid' d a = true → activeCover uid' d b = true → False := by
    intro uid' d a b hR hca hcb
    simp only [activeCover, Bool.and_eq_true, beq_iff_eq,
      decide_eq_true_eq] at hca hcb
    obtain ⟨⟨⟨haa, hau⟩, ha1⟩, ha2⟩ := hca
    obtain ⟨⟨⟨hba, hbu⟩, hb1⟩, hb2⟩ := hcb
    exact hR ⟨haa, hba, by rw [hau, hbu], by omega, by omega⟩
  have hclear := deactivate_clears_overlap uid (today - today % 7) st.plans
    hpair halign hs7
  have hdeal := weekAligned_deactivate uid (today - today % 7)
    (today - today % 7 + 6) st.plans halign
  have hpairdeact := pairwise_deactivate uid (today - today % 7)
    (today - today % 7 + 6) st.plans hpair
  have hpair' : st'.plans.Pairwise PlansCompatible := by
    rw [hplans]
    rw [List.pairwise_append]
    refine ⟨hpairdeact, List.pairwise_singleton _ _, ?_⟩
    intro a ha b hb
    rcases List.mem_singleton.mp hb with rfl
    intro hcon
    obtain ⟨haa, hba, hu, h1, h2⟩ := hcon
    have : overlapCond uid (today - today % 7) (today - today % 7 + 6) a = true := by
      simp only [overlapCond, Bool.and_eq_true, beq_iff_eq, decide_eq_true_eq]
      exact ⟨⟨⟨by simpa [newPlanOf] using hu, haa⟩, by simpa [newPlanOf] using h1⟩,
        by simpa [newPlanOf] using h2⟩
    rw [hclear a ha] at this
    exact Bool.false_ne_true this
  refine ⟨?_, ?_, ?_, hpair', rfl, rfl, rfl, rfl, ?_, ?_⟩
  · intro d hd1 hd2
    rw [hplans]
    simp only [countActiveCovering, List.filter_append, List.length_append]
    have hone : (List.filter (activeCover uid d)
        [newPlanOf st resp uid today]).length = 1 := by
      simp [activeCover, newPlanOf, hd1, hd2]
    have hz : (List.filter (activeCover uid d)
        (deactivateFirstOverlap uid (today - today % 7) (today - today % 7 + 6)
          st.plans)).length = 0 := by
      rw [List.length_eq_zero, List.filter_eq_nil_iff]
      intro q hq hcov
      simp only [activeCover, Bool.and_eq_true, beq_iff_eq,
        decide_eq_true_eq] at hcov
      obtain ⟨⟨⟨hqa, hqu⟩, hq1⟩, hq2⟩ := hcov
      have : overlapCond uid (today - today % 7) (today - today % 7 + 6) q = true := by
        simp only [overlapCond, Bool.and_eq_true, beq_iff_eq, decide_eq_true_eq]
        exact ⟨⟨⟨hqu, hqa⟩, by omega⟩, by omega⟩
      rw [hclear q hq] at this
      exact Bool.false_ne_true this
    rw [hone, hz]
  · intro uid' d
    exact filter_length_le_one_of_pairwise _ PlansCompatible st'.plans hpair'
      (hcompat uid' d)
  · intro p hp
    rw [hplans] at hp
    rcases List.mem_append.mp hp with h1 | h1
    · exact hdeal p h1
    · rcases List.mem_singleton.mp h1 with rfl
      exact ⟨hs7, rfl⟩
  · rw [hplans]
    exact List.mem_append.mpr (Or.inr (List.mem_singleton.mpr rfl))
  · intro d ⟨p, hpmem, hpcov⟩
    have hle := filter_length_le_one_of_pairwise (activeCover uid d)
      PlansCompatible st.plans hpair (hcompat uid d)
    have hge : 0 < (st.plans.filter (activeCover uid d)).length := by
      have hm : p ∈ st.plans.filter (activeCover uid d) :=
        List.mem_filter.mpr ⟨hpmem, hpcov⟩
      exact List.length_pos.mpr (List.ne_nil_of_mem hm)
    simp only [countActiveCovering]
    omega

/-- An active week-0 plan for user 1. -/
def planA : WorkoutPlan :=
  { planId := 1, userId := 1, generatedByAI := true, startDate := 0, endDate := 6,
    isActive := true, planVersion := 1, overview := "", createdAt := 0 }

/-- Store holding just that active plan. -/
def stOnePlan : Store := { stEmpty with plans := [planA], nextPlanId := 2 }

/-- An empty generated response for user 1. -/
def respEmpty : AIResponse :=
  { user_id := some 1, routines := [], weekly_schedule := [], overview := "" }

/-- The regenerated plan for the same week. -/
def planB2 : WorkoutPlan :=
  { planId := 2, userId := 1, generatedByAI := true, startDate := 0, endDate := 6,
    isActive := true, planVersion := 1, overview := "", createdAt := 2 }

/-- Store after regenerating over the existing plan: the old plan
deactivated, the new one active. -/
def stRegen : Store :=
  { stEmpty with
    plans := [{ planA with isActive := false }, planB2],
    nextPlanId := 3 }

theorem plan_overlap_invariant_witness :
    countActiveCovering stRegen.plans 1 3 = 1 ∧
    countActiveCovering stOnePlan.plans 1 3 = 1 :=
  ⟨(plan_overlap_invariant stOnePlan respEmpty 2 1 stRegen planB2 rfl (by rfl)
      (by decide) (by decide)).1 3 (by decide) (by decide),
   (plan_overlap_invariant stOnePlan respEmpty 2 1 stRegen planB2 rfl (by rfl)
      (by decide) (by decide)).2.2.2.2.2.2.2.2.2 3 ⟨planA, by decide, by decide⟩⟩

/-! ### Lenient parse fallbacks -/

/-- C9: the lenient fallbacks never fail.  Hydration: a routine blob whose
parse fails yields the empty exercise list, as does any parsed value that is
neither a list nor a dict carrying an `exercises` key; every routine of a
hydrated view gets its exercises through exactly this extraction.
Persistence: a weekly-schedule item whose `day_of_week` string resolves to no
enum name is stored as Monday, one whose `status` string resolves to no enum
name is stored as `pending`, and one whose routine name misses the name map
gets a null routine id and is a rest day; a successful save stores exactly
the entries so built. -/
theorem lenient_parse_fallbacks :
    (∀ (parse : String → Except String Json) (s e : String),
      parse s = .error e → s ≠ "" →
      extract_exercises parse (some s) = Json.arr []) ∧
    (∀ (parse : String → Except String Json) (s : String) (v : Json),
      parse s = .ok v → (∀ xs, v ≠ Json.arr xs) →
      (∀ fl, v = Json.obj fl → lookupField fl "exercises" = none) →
      extract_exercises parse (some s) = Json.arr []) ∧
    (∀ (parse : String → Except String Json) (st : Store) (p : WorkoutPlan)
        (rv : RoutineView),
      rv ∈ (format_workout_plan_response parse st p).routines →
      ∃ r ∈ st.routines, rv.exercises = extract_exercises parse r.routineJson) ∧
    (∀ (m : List (Option String × Nat)) (pid sid : Nat) (it : AIScheduleData)
        (s : String),
      it.day_of_week = some s → dayOfWeekFromName (asciiUpper s) = none →
      (buildScheduleEntry m pid sid it).dayOfWeek = DayOfWeek.monday) ∧
    (∀ (m : List (Option String × Nat)) (pid sid : Nat) (it : AIScheduleData)
        (s : String),
      it.status = some s → scheduleStatusFromName (asciiUpper s) = none →
      (buildScheduleEntry m pid sid it).status = ScheduleStatus.pending) ∧
    (∀ (m : List (Option String × Nat)) (pid sid : Nat) (it : AIScheduleData),
      alistLookup m it.routine_name = none →
      (buildScheduleEntry m pid sid it).routineId = none ∧
      (buildScheduleEntry m pid sid it).isRestDay = true) ∧
    (∀ (st : Store) (resp : AIResponse) (today : Nat) (st' : Store)
        (plan : WorkoutPlan),
      save_ai_workout_plan st resp today = .ok (st', plan) →
      st'.schedules = st.schedules ++
        buildScheduleEntries
          (buildRoutines st.nextPlanId st.nextRoutineId [] resp.routines).2
          st.nextPlanId st.nextScheduleId resp.weekly_schedule) := by
  refine ⟨?_, ?_, ?_, ?_, ?_, ?_, ?_⟩
  · intro parse s e hp hne
    simp [extract_exercises, hne, hp]
  · intro parse s v hp harr hobj
    by_cases hs : s = ""
    · simp [extract_exercises, hs, lookupField]
    · cases v with
      | null => simp [extract_exercises, hs, hp]
      | bool b => simp [extract_exercises, hs, hp]
      | num n => simp [extract_exercises, hs, hp]
      | str t => simp [extract_exercises, hs, hp]
      | arr xs => exact absurd rfl (harr xs)
      | obj fl => simp [extract_exercises, hs, hp, hobj fl rfl]
  · intro parse st p rv hrv
    simp only [format_workout_plan_response, List.mem_map] at hrv
    obtain ⟨r, hr, rfl⟩ := hrv
    exact ⟨r, (List.mem_filter.mp hr).1, rfl⟩
  · intro m pid sid it s h1 h2
    simp [buildScheduleEntry, resolveDayOfWeek, h1, h2]
  · intro m pid sid it s h1 h2
    simp [buildScheduleEntry, resolveStatus, h1, h2]
  · intro m pid sid it h
    constructor <;> simp [buildScheduleEntry, h]
  · intro st resp today st' plan h
    exact save_ai_workout_plan_schedules st resp today st' plan h

/-- A parse function that always fails. -/
def parseBad : String → Except String Json := fun _ => .error "malformed"

/-- A parse function producing a value of unexpected shape. -/
def parseNum : String → Except String Json := fun _ => .ok (Json.num 3)

/-- A schedule item with an unrecognized day and status and an unmapped
routine name. -/
def itemBad : AIScheduleData :=
  { day_of_week := some "Funday", routine_name := some "X", status := some "odd" }

theorem lenient_parse_fallbacks_witness :
    extract_exercises parseBad (some "x") = Json.arr [] ∧
    extract_exercises parseNum (some "x") = Json.arr [] ∧
    (buildScheduleEntry [] 1 1 itemBad).dayOfWeek = DayOfWeek.monday ∧
    (buildScheduleEntry [] 1 1 itemBad).status = ScheduleStatus.pending ∧
    (buildScheduleEntry [] 1 1 itemBad).routineId = none ∧
    stAfterSave.schedules = stEmpty.schedules ++
      buildScheduleEntries
        (buildRoutines stEmpty.nextPlanId stEmpty.nextRoutineId [] respRest.routines).2
        stEmpty.nextPlanId stEmpty.nextScheduleId respRest.weekly_schedule :=
  ⟨lenient_parse_fallbacks.1 parseBad "x" "malformed" rfl (by decide),
   lenient_parse_fallbacks.2.1 parseNum "x" (Json.num 3) rfl
     (fun xs h => nomatch h) (fun fl h => nomatch h),
   lenient_parse_fallbacks.2.2.2.1 [] 1 1 itemBad "Funday" rfl (by decide),
   lenient_parse_fallbacks.2.2.2.2.1 [] 1 1 itemBad "odd" rfl (by decide),
   (lenient_parse_fallbacks.2.2.2.2.2.1 [] 1 1 itemBad (by decide)).1,
   lenient_parse_fallbacks.2.2.2.2.2.2 stEmpty respRest 2 stAfterSave planV (by rfl)⟩

/-! ### Get-or-create anchoring -/

/-- A complete, valid goal row for user 1. -/
def goalW : GoalRec :=
  { userId := 1, active := true, targetWeight := some 65,
    targetDurationInWeeks := some 12, noOfWorkoutDaysInWeek := some 4 }

/-- A store with a fully set-up user (valid height, weight, and goal data)
and no plans at all. -/
def stReady : Store := { stEmpty with users := [userW], goals := [goalW] }

/-- C8 (code bug in the source): the get-or-create flow does not anchor the
generated plan to the requested date.  With today = day 2 (Wednesday of week
0), a request for day 7 (Monday of the next week) by a fully set-up user
with no plans triggers generation, but `save_ai_workout_plan` computes the
window from today, creating a plan covering days 0-6 — not the Monday
on/before the requested date (day 7) — so the re-query for the requested
date finds nothing and the flow fails with the wrapped error, contradicting
its own docstrings, which promise the plan for the requested date.  (The
failure in the source is even earlier: `AIService.continue_workout_plan`
passes two positional arguments to the one-parameter
`save_ai_workout_plan`, a `TypeError` on every generation; the modelled
intended dataflow shows the anchoring defect that remains after fixing the
call.) -/
theorem get_or_create_anchors_to_today_not_target :
    (get_user_workout_plan_by_date stReady 1 7 2 respEmpty parseBad).1.plans.map
      (fun p => (p.startDate, p.endDate)) = [(0, 6)] ∧
    (get_user_workout_plan_by_date stReady 1 7 2 respEmpty parseBad).2.1 =
      FetchResult.err ("Could not generate workout plan: " ++
        ("Failed to generate workout plan: " ++
          "Workout plan was generated but not found in database")) ∧
    (get_user_workout_plan_by_date stReady 1 7 2 respEmpty parseBad).2.2 = true ∧
    planCoversQuery
      (get_user_workout_plan_by_date stReady 1 7 2 respEmpty parseBad).1.plans
      1 7 = none := by
  refine ⟨rfl, rfl, rfl, rfl⟩

end RFT
